import Mathlib

/-!
Verification development for the lineage and mapping engine of a LIMS client
toolkit (file ua_clarity_tools.py).  The Python code is shallowly embedded:

* XML documents fetched from the remote LIMS are modelled as structured
  records (`ArtSoup` for hydrated artifact records, `StepSoup` for step-detail
  and process documents) held in a finite environment `Env` standing for the
  remote database reachable through the transport collaborator.
* The batched fetch (`api.get` on a list of links, an external collaborator)
  is modelled per the Batch Resolver contract: requested identifiers are
  normalized (query suffix stripped) and deduplicated keeping first
  occurrences, identifiers that do not resolve are simply absent.
* Python dicts are modelled as insertion-ordered association lists with the
  corresponding update operations; Python `None` returns are modelled with
  `Option`, raised exceptions with `Except PyError`.
* The recursion of `get_artifacts_previous_step` is given a fuel parameter;
  `PyError.nonTermination` is produced only when the fuel bound is exceeded
  and never by any modelled Python behaviour.
-/

/-- Everything before the first question mark, i.e. the Python idiom
`uri.split("?")[0]` used throughout the source to normalize uris. -/
def stripQuery (u : String) : String :=
  String.mk (u.toList.takeWhile (fun c => c != '?'))

/-- The ways the embedded Python code can raise.
`runtimeError` carries the formatted message.  `typeError` models
subscripting `None` (e.g. `iomap.find(stream)["uri"]` when the tag is
missing).  `keyError` models an uncaught dict lookup miss.  `unboundLocal`
models `UnboundLocalError`: reading a local variable on a path where it was
never assigned.  `transport` models an HTTP/transport failure propagating
out of the external api collaborator.  `nonTermination` is the fuel bound of
the embedding, not a Python behaviour. -/
inductive PyError where
  | runtimeError (msg : String)
  | typeError
  | keyError
  | unboundLocal
  | transport
  | nonTermination
deriving DecidableEq

/-- One `input-output-map` element of a step-details or process document:
one input link and one output link with the output classification
attributes.  In the LIMS XML a PerAllInputs (shared) output appears in one
such element per input, so a shared output is listed several times. -/
structure IOMapEntry where
  inputUri : String
  outputUri : String
  outputType : String
  outputGenerationType : String
deriving DecidableEq

/-- A step-details document (which carries a `configuration` tag holding the
step name) or a process document (which carries only a `type` tag).  The
source reads `find("configuration").text` and falls back to
`find("type").text` when the former raises `AttributeError` on `None`. -/
structure StepSoup where
  configuration : Option String
  typeName : String
  iomaps : List IOMapEntry
deriving DecidableEq

/-- `step_name` as computed at the top of `get_artifacts_previous_step`
(lines 684-687): the configuration text if that tag exists, otherwise the
type text. -/
def stepName (s : StepSoup) : String :=
  s.configuration.getD s.typeName

/-- A hydrated `art:artifact` record as the source reads it.  The `uri` is
stored already stripped of its query suffix because every read of it in the
source applies `.split('?')[0]`.  `parentProcess` is `none` when the record
has no `parent-process` tag (history exhausted). -/
structure ArtSoup where
  uri : String
  name : String
  artType : String
  sampleUri : String
  containerUri : Option String
  location : Option String
  reagentLabel : Option String
  parentProcess : Option String
  udfs : List (String × String)
deriving DecidableEq

/-- The remote LIMS reachable through the transport: artifact records,
process/step documents keyed by uri, and containers as (uri, name, type). -/
structure Env where
  arts : List ArtSoup
  steps : List (String × StepSoup)
  containers : List (String × String × String)

/-- Deduplication keeping first occurrences: the determinization of Python
set construction used by the source (`{tag["uri"] for tag in ...}`).  Python
set iteration order is unspecified; the embedding fixes first-occurrence
order. -/
def dedupKeepFirstAux : List String → List String → List String
  | [], _ => []
  | x :: rest, seen =>
    if x ∈ seen then dedupKeepFirstAux rest seen
    else x :: dedupKeepFirstAux rest (x :: seen)

/-- See `dedupKeepFirstAux`. -/
def dedupKeepFirst (l : List String) : List String :=
  dedupKeepFirstAux l []

/-- The batched fetch of artifact records (spec section 4.1, Batch
Resolver): normalize, deduplicate, return the record for every identifier
that resolves, in request order; identifiers that do not resolve are simply
absent. -/
def batchGetArts (env : Env) (uris : List String) : List ArtSoup :=
  (dedupKeepFirst (uris.map stripQuery)).filterMap
    (fun u => env.arts.find? (fun a => a.uri == u))

/-- Fetch of one process/step document by uri. -/
def envStep (env : Env) (uri : String) : Option StepSoup :=
  (env.steps.find? (fun p => p.1 == uri)).map (fun p => p.2)

/-- Fetch of one container document by uri, yielding (name, type). -/
def envContainer (env : Env) (uri : String) : Option (String × String) :=
  (env.containers.find? (fun c => c.1 == uri)).map (fun c => c.2)

/-- `PreviousStepArtifact` namedtuple of the source (line 32). -/
structure PreviousStepArtifact where
  uri : String
  art_type : String
  generation_type : String
deriving DecidableEq

/-- Python dict lookup on an insertion-ordered association list. -/
def assocGet {κ β : Type} [DecidableEq κ] : List (κ × β) → κ → Option β
  | [], _ => none
  | p :: rest, k => if p.1 = k then some p.2 else assocGet rest k

/-- Python `d[k] = v`: replace in place if the key exists, else append. -/
def assocSet {κ β : Type} [DecidableEq κ] : List (κ × β) → κ → β → List (κ × β)
  | [], k, v => [(k, v)]
  | p :: rest, k, v => if p.1 = k then (k, v) :: rest else p :: assocSet rest k v

/-- Python `d.setdefault(k, []).append(x)`. -/
def assocAppend {κ β : Type} [DecidableEq κ] :
    List (κ × List β) → κ → β → List (κ × List β)
  | [], k, x => [(k, [x])]
  | p :: rest, k, x =>
    if p.1 = k then (p.1, p.2 ++ [x]) :: rest else p :: assocAppend rest k x

/-- The `results` dict of the lineage resolver: originating artifact uri (or
the distinguished key `shared`) mapped to a list of `PreviousStepArtifact`. -/
abbrev Results := List (String × List PreviousStepArtifact)

/-- Python dict equality: same keys with equal values, order irrelevant. -/
def pyDictEquiv (a b : Results) : Prop :=
  ∀ k, assocGet a k = assocGet b k

/-- `iomap.find(stream)`: the input link for stream `input`, the output link
for stream `output`, `none` (Python `None`) otherwise. -/
def findStream (io : IOMapEntry) (stream : String) : Option String :=
  if stream = "input" then some io.inputUri
  else if stream = "output" then some io.outputUri
  else none

/-- Lines 719-736 of the source: walk the match step's input-output-maps and
collect each one's stream-side uri together with the output's type and
generation type, skipping PerInput ResultFiles (they have no sample
back-link).  Subscripting a missing stream tag is a `TypeError`. -/
def targetArtsOf (stream : String) : List IOMapEntry → Except PyError (List PreviousStepArtifact)
  | [] => .ok []
  | io :: rest =>
    match findStream io stream with
    | none => .error .typeError
    | some u =>
      match targetArtsOf stream rest with
      | .error e => .error e
      | .ok tail =>
        if io.outputGenerationType = "PerInput" ∧ io.outputType = "ResultFile" then
          .ok tail
        else
          .ok ({ uri := stripQuery u, art_type := io.outputType,
                 generation_type := io.outputGenerationType } :: tail)

/-- Inner loop of lines 745-749: for one hydrated record, append every
target artifact whose uri matches to the record's sample entry. -/
def matchRecordLoop (r : ArtSoup) : List PreviousStepArtifact → Results → Results
  | [], m => m
  | ta :: rest, m =>
    matchRecordLoop r rest (if r.uri = ta.uri then assocAppend m r.sampleUri ta else m)

/-- Outer loop of lines 745-749: build the sample uri to target artifacts
index over all hydrated records. -/
def collectSmpArts (tas : List PreviousStepArtifact) : List ArtSoup → Results → Results
  | [], m => m
  | r :: rest, m => collectSmpArts tas rest (matchRecordLoop r tas m)

/-- Lines 752-758: for every supplied (originating artifact uri, sample uri)
pair, store the sample's target artifacts under the originating artifact
uri; a missing sample is a `KeyError` re-raised as `RuntimeError`. -/
def assignResults (tsa : Results) : List (String × String) → Results → Except PyError Results
  | [], res => .ok res
  | (artUri, smpUri) :: rest, res =>
    match assocGet tsa smpUri with
    | some v => assignResults tsa rest (assocSet res artUri v)
    | none =>
      .error (.runtimeError ("The artifact " ++ artUri ++
        " did not run at the same time as the other samples passed in."))

/-- Lines 762-764: append every target artifact whose type is `ResultFile`
to the `shared` entry of the results dict.  Note the source filters on the
artifact type, not on the generation type, and does not deduplicate. -/
def appendShared : List PreviousStepArtifact → Results → Results
  | [], res => res
  | ta :: rest, res =>
    appendShared rest
      (if ta.art_type = "ResultFile" then assocAppend res "shared" ta else res)

/-- The `else` (match-step) branch of `get_artifacts_previous_step`
(lines 717-765). -/
def matchStepBranch (env : Env) (stream : String) (asu : List (String × String))
    (step : StepSoup) (results : Results) : Except PyError (Option Results) :=
  match targetArtsOf stream step.iomaps with
  | .error e => .error e
  | .ok tas =>
    let recs := batchGetArts env (tas.map (fun a => a.uri))
    let tsa := collectSmpArts tas recs []
    match assignResults tsa asu results with
    | .error e => .error e
    | .ok res1 => .ok (some (appendShared tas res1))

/-- `StepTools.get_artifacts_previous_step` (lines 649-765).  When the
current document's step name differs from `dest`, the source hydrates the
step's input artifacts, collects the set of their `parent-process` uris
(`find_all` returns a list, so a record without the tag contributes
nothing and can never raise the `AttributeError` the source tries to
catch), and recurses into the first member of that set, returning
immediately; when the set is empty the `for` loop body never runs and the
function falls off the end, returning Python `None` (`.ok none` here).
When the names match, the match-step branch runs. -/
def get_artifacts_previous_step (env : Env) :
    Nat → String → String → List (String × String) → StepSoup → Results →
    Except PyError (Option Results)
  | 0, _, _, _, _, _ => .error .nonTermination
  | fuel+1, dest, stream, asu, step, results =>
    if stepName step ≠ dest then
      let recs := batchGetArts env (step.iomaps.map (fun io => stripQuery io.inputUri))
      match dedupKeepFirst (recs.filterMap ArtSoup.parentProcess) with
      | [] => .ok none
      | p :: _ =>
        match envStep env p with
        | none => .error .transport
        | some s2 => get_artifacts_previous_step env fuel dest stream asu s2 results
    else
      matchStepBranch env stream asu step results

/-- Two successive Python calls that both leave `results` at its default.
The default `results=dict()` (line 650) is evaluated once at function
definition time and shared between such calls; the match-step branch
mutates and returns that very object, so the second call starts from the
state the first call left behind. -/
def get_artifacts_previous_step_twice (env : Env) (fuel : Nat)
    (dest stream : String) (asu : List (String × String)) (step : StepSoup) :
    Except PyError (Option Results × Option Results) :=
  match get_artifacts_previous_step env fuel dest stream asu step [] with
  | .error e => .error e
  | .ok r1 =>
    match get_artifacts_previous_step env fuel dest stream asu step (r1.getD []) with
    | .error e => .error e
    | .ok r2 => .ok (r1, r2)

/-- The Python value shapes relevant to `set_artifact_udf`.  A float is
carried by its Python text form only; no floating-point arithmetic is
modelled, the type-inference rule only inspects the shape. -/
inductive PyValue where
  | pybool (b : Bool)
  | pyint (n : Int)
  | pyfloat (text : String)
  | pystr (s : String)
deriving DecidableEq

/-- Python `isinstance(v, bool)`. -/
def isinstance_bool : PyValue → Bool
  | .pybool _ => true
  | _ => false

/-- Python `isinstance(v, int)`: true for bools too, since Python `bool` is
a subclass of `int`. -/
def isinstance_int : PyValue → Bool
  | .pybool _ => true
  | .pyint _ => true
  | _ => false

/-- Python `isinstance(v, float)`. -/
def isinstance_float : PyValue → Bool
  | .pyfloat _ => true
  | _ => false

/-- Python `str(v)` on the modelled shapes. -/
def pythonStr : PyValue → String
  | .pybool true => "True"
  | .pybool false => "False"
  | .pyint n => toString n
  | .pyfloat t => t
  | .pystr s => s

/-- Lines 621-627 of the source: the declared type for a new UDF element,
inferred from the value's shape.  `isinstance(value, bool)` is tested
before `isinstance(value, int)`, so a bool infers Boolean even though it is
also an int. -/
def infer_udf_type (v : PyValue) : String :=
  if isinstance_bool v then "Boolean"
  else if isinstance_int v || isinstance_float v then "Numeric"
  else "String"

/-- A `udf:field` element of an `art:artifact` record: name and type
attributes plus the text content. -/
structure UdfField where
  name : String
  declaredType : String
  text : String
deriving DecidableEq

/-- `target_udf.string = str(udf.value)` after
`art.find(attrs={"name": udf.name})`: overwrite the text of the first field
whose name attribute matches, leaving its type attribute untouched. -/
def replaceFirstText : List UdfField → String → String → List UdfField
  | [], _, _ => []
  | f :: rest, nm, t =>
    if f.name = nm then { f with text := t } :: rest
    else f :: replaceFirstText rest nm t

/-- Lines 615-636 of the source, one (name, value) pair applied to the
udf:field children of one artifact record.  `art.find(attrs={"name": ...})`
is modelled over the udf fields (the record's other children carry no name
attribute here); a found bs4 `Tag` is truthy even when empty, so the first
branch fires exactly when a field with that name exists.  A missing field
is synthesized with the inferred type and inserted right after the `sample`
tag, i.e. in front of the previously present fields. -/
def set_one_udf (fields : List UdfField) (nm : String) (v : PyValue) : List UdfField :=
  if fields.any (fun f => f.name == nm) then
    replaceFirstText fields nm (pythonStr v)
  else
    { name := nm, declaredType := infer_udf_type v, text := pythonStr v } :: fields

/-- The loop of line 614: apply every supplied (name, value) pair in order
to one artifact's fields. -/
def set_udfs_on_artifact (fields : List UdfField)
    (udfs : List (String × PyValue)) : List UdfField :=
  udfs.foldl (fun fs u => set_one_udf fs u.1 u.2) fields

/-- `Artifact` dataclass of the source as populated by `get_artifacts` with
default flags (lines 414-452): `container_name`, `container_type` and
`parent_process` stay `None` (the source binds the parent-process uri to a
local variable at lines 439-441 and never stores it on the dataclass). -/
structure Artifact where
  name : String
  uri : String
  art_type : String
  sample_uri : String
  container_uri : Option String
  container_name : Option String
  container_type : Option String
  location : Option String
  parent_process : Option String
  reagent_label : Option String
  udf : List (String × String)
deriving DecidableEq

/-- `Hashable_Artifact` namedtuple of `get_artifact_map` (lines 521-532):
the dataclass fields in order with the udf map dropped
(`astuple(...)[:-1]`). -/
structure HashableArtifact where
  name : String
  uri : String
  art_type : String
  sample_uri : String
  container_uri : Option String
  container_name : Option String
  container_type : Option String
  location : Option String
  parent_process : Option String
  reagent_label : Option String
deriving DecidableEq

/-- `Hashable_Artifact(*(astuple(art)[:-1]))`. -/
def hashableOf (a : Artifact) : HashableArtifact :=
  { name := a.name, uri := a.uri, art_type := a.art_type,
    sample_uri := a.sample_uri, container_uri := a.container_uri,
    container_name := a.container_name, container_type := a.container_type,
    location := a.location, parent_process := a.parent_process,
    reagent_label := a.reagent_label }

/-- `StepTools.get_artifacts` (lines 379-468) with the default flags used
by `get_artifact_map` (uri_only and container_info both false; the
container-enrichment mode is not exercised by any embedded caller).  For
stream `output` only PerInput outputs are collected; for stream `input`
every input is; an iomap without the requested stream tag is skipped. -/
def get_artifacts (env : Env) (doc : StepSoup) (stream : String) : List Artifact :=
  let art_uris := doc.iomaps.filterMap (fun io =>
    match findStream io stream with
    | none => none
    | some uri =>
      if stream = "output" then
        if io.outputGenerationType = "PerInput" then some uri else none
      else some uri)
  (batchGetArts env art_uris).map (fun r =>
    { name := r.name, uri := r.uri, art_type := r.artType,
      sample_uri := r.sampleUri, container_uri := r.containerUri,
      container_name := none, container_type := none, location := r.location,
      parent_process := none, reagent_label := r.reagentLabel, udf := r.udfs })

/-- The loop state of `get_artifact_map`: the two uri-to-record lookup
tables (`none` models the Python locals never having been assigned, which
happens exactly when `uri_only` is true) and the two possible shapes of the
accumulated map. -/
structure AMState where
  inArts : Option (List (String × Artifact))
  outArts : Option (List (String × Artifact))
  uriMap : List (String × List String)
  artMap : List (HashableArtifact × List HashableArtifact)

/-- Write a container's name and type onto an `Artifact` record. -/
def withConInfo (a : Artifact) (ci : String × String) : Artifact :=
  { a with container_name := some ci.1, container_type := some ci.2 }

/-- Lines 546-567 of the source: fetch the input artifact's container and
the output artifact's container and write their name/type onto the records
held in the lookup tables.  Reading a table that was never assigned is an
`UnboundLocalError`; a missing key is a `KeyError`; fetching a `None` or
unresolvable container uri fails in the transport. -/
def enrichContainers (env : Env) (io : IOMapEntry) (st : AMState) :
    Except PyError AMState :=
  match st.inArts with
  | none => .error .unboundLocal
  | some ind =>
    match assocGet ind io.inputUri with
    | none => .error .keyError
    | some inArt =>
      match inArt.container_uri with
      | none => .error .transport
      | some curi =>
        match envContainer env curi with
        | none => .error .transport
        | some ci =>
          let ind2 := assocSet ind io.inputUri (withConInfo inArt ci)
          match st.outArts with
          | none => .error .unboundLocal
          | some outd =>
            match assocGet outd io.outputUri with
            | none => .error .keyError
            | some outArt =>
              match outArt.container_uri with
              | none => .error .transport
              | some ocuri =>
                match envContainer env ocuri with
                | none => .error .transport
                | some oci =>
                  let outd2 := assocSet outd io.outputUri (withConInfo outArt oci)
                  .ok { st with inArts := some ind2, outArts := some outd2 }

/-- The non-uri body of the loop of `get_artifact_map` (lines 545-576):
optional container enrichment, then conversion of the two looked-up records
to hashable tuples and insertion into the artifact-keyed map.  Reading a
lookup table that was never assigned (uri_only mode) is an
`UnboundLocalError`. -/
def amBodyArts (env : Env) (container_info : Bool) (io : IOMapEntry)
    (st : AMState) : Except PyError AMState :=
  match (if container_info then enrichContainers env io st else .ok st) with
  | .error e => .error e
  | .ok st1 =>
    match st1.inArts with
    | none => .error .unboundLocal
    | some ind =>
      match assocGet ind io.inputUri with
      | none => .error .keyError
      | some ia =>
        match st1.outArts with
        | none => .error .unboundLocal
        | some outd =>
          match assocGet outd io.outputUri with
          | none => .error .keyError
          | some oa =>
            .ok { st1 with
                  artMap := assocAppend st1.artMap (hashableOf ia) (hashableOf oa) }

/-- The loop of `get_artifact_map` over the input-output-maps
(lines 535-576): only PerInput relations are processed at all; in uri mode
without container info the uri pair is appended, otherwise the record-based
body runs. -/
def amLoop (env : Env) (uri_only container_info : Bool) :
    List IOMapEntry → AMState → Except PyError AMState
  | [], st => .ok st
  | io :: rest, st =>
    if io.outputGenerationType = "PerInput" then
      if uri_only && !container_info then
        amLoop env uri_only container_info rest
          { st with uriMap := assocAppend st.uriMap io.inputUri io.outputUri }
      else
        match amBodyArts env container_info io st with
        | .error e => .error e
        | .ok st2 => amLoop env uri_only container_info rest st2
    else amLoop env uri_only container_info rest st

/-- The two possible shapes of the dict `get_artifact_map` returns.  An
empty dict is rendered in the shape the mode would have produced entries
in. -/
inductive ArtifactMapResult where
  | uris (m : List (String × List String))
  | arts (m : List (HashableArtifact × List HashableArtifact))
deriving DecidableEq

/-- `StepTools.get_artifact_map` (lines 497-578).  The lookup tables are
assigned only when `uri_only` is false (line 510); the loop then walks the
step's input-output-maps.  Note the iomap uris are used as dict keys
without stripping here, unlike in the lineage resolver. -/
def get_artifact_map (env : Env) (doc : StepSoup)
    (uri_only container_info : Bool) : Except PyError ArtifactMapResult :=
  let inArts : Option (List (String × Artifact)) :=
    if uri_only then none
    else some ((get_artifacts env doc "input").map (fun a => (a.uri, a)))
  let outArts : Option (List (String × Artifact)) :=
    if uri_only then none
    else some ((get_artifacts env doc "output").map (fun a => (a.uri, a)))
  match amLoop env uri_only container_info doc.iomaps
      { inArts := inArts, outArts := outArts, uriMap := [], artMap := [] } with
  | .error e => .error e
  | .ok st =>
    .ok (if uri_only && !container_info then .uris st.uriMap else .arts st.artMap)

/-- Helper to build a plain analyte-like artifact record. -/
def mkArt (uri sample : String) (parent : Option String) : ArtSoup :=
  { uri := uri, name := uri, artType := "Analyte", sampleUri := sample,
    containerUri := none, location := none, reagentLabel := none,
    parentProcess := parent, udfs := [] }

/-- Step S of the end-to-end scenario of the spec (section 8): two inputs
A1 and A2, each with a PerInput Analyte output (O1, O2), plus one
PerAllInputs ResultFile R which, as in the LIMS XML, appears in one
input-output-map per input. -/
def docS : StepSoup :=
  { configuration := some "S", typeName := "S",
    iomaps :=
      [ { inputUri := "A1", outputUri := "O1", outputType := "Analyte",
          outputGenerationType := "PerInput" },
        { inputUri := "A2", outputUri := "O2", outputType := "Analyte",
          outputGenerationType := "PerInput" },
        { inputUri := "A1", outputUri := "R", outputType := "ResultFile",
          outputGenerationType := "PerAllInputs" },
        { inputUri := "A2", outputUri := "R", outputType := "ResultFile",
          outputGenerationType := "PerAllInputs" } ] }

/-- The remote database for the step-S scenario: the two inputs belong to
samples s1 and s2, the outputs likewise, and the shared ResultFile record
carries (as in the LIMS) the first sample as its sample back-link. -/
def envS : Env :=
  { arts := [mkArt "A1" "s1" none, mkArt "A2" "s2" none,
             mkArt "O1" "s1" none, mkArt "O2" "s2" none,
             { mkArt "R" "s1" none with artType := "ResultFile" }],
    steps := [], containers := [] }

/-- The originating artifacts of the scenario call: O1 traced to sample s1
and O2 to sample s2. -/
def asuS : List (String × String) := [("O1", "s1"), ("O2", "s2")]

/-- Shorthand ancestor entries of the step-S scenario. -/
def taA1 : PreviousStepArtifact :=
  { uri := "A1", art_type := "Analyte", generation_type := "PerInput" }

def taA2 : PreviousStepArtifact :=
  { uri := "A2", art_type := "Analyte", generation_type := "PerInput" }

def taA1R : PreviousStepArtifact :=
  { uri := "A1", art_type := "ResultFile", generation_type := "PerAllInputs" }

def taA2R : PreviousStepArtifact :=
  { uri := "A2", art_type := "ResultFile", generation_type := "PerAllInputs" }

/-- What the source actually returns for the scenario call with stream
input (computed below): each originating artifact maps to the entries of
all non-skipped relations of its sample (both carrying the input-side uri),
and `shared` holds the input-side entries of the two shared relations. -/
def dS1 : Results :=
  [("O1", [taA1, taA1R]), ("O2", [taA2, taA2R]), ("shared", [taA1R, taA2R])]

/-- The result of the second defaulted call: the per-artifact keys are
overwritten with identical values but the `shared` list is appended to
again. -/
def dS2 : Results :=
  [("O1", [taA1, taA1R]), ("O2", [taA2, taA2R]),
   ("shared", [taA1R, taA2R, taA1R, taA2R])]

/-- Stream-output shorthand entries for the step-S scenario. -/
def taO1 : PreviousStepArtifact :=
  { uri := "O1", art_type := "Analyte", generation_type := "PerInput" }

def taO2 : PreviousStepArtifact :=
  { uri := "O2", art_type := "Analyte", generation_type := "PerInput" }

def taR : PreviousStepArtifact :=
  { uri := "R", art_type := "ResultFile", generation_type := "PerAllInputs" }

/-- Originating artifacts for the stream-output call on step S. -/
def asu5 : List (String × String) := [("p1", "s1"), ("p2", "s2")]

/-- The target artifacts the match step retains for the stream-output call:
the shared ResultFile once per relation it appears in. -/
def tas5 : List PreviousStepArtifact := [taO1, taO2, taR, taR]

/-- What the source returns for the stream-output call on step S. -/
def d5res : Results :=
  [("p1", [taO1, taR, taR]), ("p2", [taO2]), ("shared", [taR, taR])]

/-- A step whose only input artifact has no parent-process back-link:
history is exhausted immediately when looking for any other step. -/
def docFront : StepSoup :=
  { configuration := some "C0", typeName := "C0",
    iomaps := [ { inputUri := "b1", outputUri := "ob1", outputType := "Analyte",
                  outputGenerationType := "PerInput" } ] }

def envFront : Env :=
  { arts := [mkArt "b1" "s1" none], steps := [], containers := [] }

/-- A current step like `docFront` but with two traced artifacts, to
exhibit the supplied-artifact invariant of claim C7. -/
def docStop : StepSoup :=
  { configuration := some "C7", typeName := "C7",
    iomaps :=
      [ { inputUri := "c1", outputUri := "oc1", outputType := "Analyte",
          outputGenerationType := "PerInput" },
        { inputUri := "c2", outputUri := "oc2", outputType := "Analyte",
          outputGenerationType := "PerInput" } ] }

def envStop : Env :=
  { arts := [mkArt "c1" "s1" none, mkArt "c2" "s2" none],
    steps := [], containers := [] }

/-- Divergence scenario: at the current step C the two traced samples carry
distinct parent-process references X and Y; both X and Y lead back to the
same earlier execution D of the destination step. -/
def docC : StepSoup :=
  { configuration := some "C", typeName := "C",
    iomaps :=
      [ { inputUri := "a1", outputUri := "oC1", outputType := "Analyte",
          outputGenerationType := "PerInput" },
        { inputUri := "a2", outputUri := "oC2", outputType := "Analyte",
          outputGenerationType := "PerInput" } ] }

def docX : StepSoup :=
  { configuration := none, typeName := "X",
    iomaps := [ { inputUri := "x1", outputUri := "ox1", outputType := "Analyte",
                  outputGenerationType := "PerInput" } ] }

def docY : StepSoup :=
  { configuration := none, typeName := "Y",
    iomaps := [ { inputUri := "y1", outputUri := "oy1", outputType := "Analyte",
                  outputGenerationType := "PerInput" } ] }

def docD : StepSoup :=
  { configuration := none, typeName := "Dest",
    iomaps :=
      [ { inputUri := "i1", outputUri := "oD1", outputType := "Analyte",
          outputGenerationType := "PerInput" },
        { inputUri := "i2", outputUri := "oD2", outputType := "Analyte",
          outputGenerationType := "PerInput" } ] }

def envChain : Env :=
  { arts := [mkArt "a1" "s1" (some "X"), mkArt "a2" "s2" (some "Y"),
             mkArt "x1" "s1" (some "D"), mkArt "y1" "s2" (some "D"),
             mkArt "i1" "s1" none, mkArt "i2" "s2" none],
    steps := [("X", docX), ("Y", docY), ("D", docD)], containers := [] }

/-- The entries of the destination execution in the divergence scenario. -/
def taI1 : PreviousStepArtifact :=
  { uri := "i1", art_type := "Analyte", generation_type := "PerInput" }

def taI2 : PreviousStepArtifact :=
  { uri := "i2", art_type := "Analyte", generation_type := "PerInput" }

/-- What the source returns in the divergence scenario: results derived
from following one branch, with no error. -/
def dChain : Results := [("O1", [taI1]), ("O2", [taI2])]

/-- A step with one PerInput relation and one PerAllInputs relation, for
the io-map builder claims. -/
def docMix : StepSoup :=
  { configuration := some "M", typeName := "M",
    iomaps :=
      [ { inputUri := "A1x", outputUri := "O1x", outputType := "Analyte",
          outputGenerationType := "PerInput" },
        { inputUri := "A1x", outputUri := "Rx", outputType := "ResultFile",
          outputGenerationType := "PerAllInputs" } ] }

def envMix : Env := { arts := [], steps := [], containers := [] }

/-- A relation survives the match-step filter unless it is a PerInput
ResultFile. -/
def notSkipped (a : PreviousStepArtifact) : Prop :=
  ¬(a.generation_type = "PerInput" ∧ a.art_type = "ResultFile")

/-- Every entry stored under any key of the map satisfies `notSkipped`. -/
def allEntriesP (r : Results) : Prop :=
  ∀ p ∈ r, ∀ a ∈ p.2, notSkipped a

/-- Every (key, element) pair of a list-valued association map satisfies
`P`. -/
def PairsP {κ β : Type} (P : κ → β → Prop) (m : List (κ × List β)) : Prop :=
  ∀ p ∈ m, ∀ o ∈ p.2, P p.1 o

/-- Total number of elements over all values of a list-valued association
map. -/
def pairCount {κ β : Type} : List (κ × List β) → Nat
  | [] => 0
  | p :: rest => p.2.length + pairCount rest

/-- Proof-side restatement of the uri-mode loop of `get_artifact_map`: the
map produced when only the uri branch runs. -/
def uriPairsFold : List IOMapEntry → List (String × List String) → List (String × List String)
  | [], m => m
  | io :: rest, m =>
    uriPairsFold rest
      (if io.outputGenerationType = "PerInput"
       then assocAppend m io.inputUri io.outputUri else m)

theorem assocGet_assocSet {κ β : Type} [DecidableEq κ] (m : List (κ × β))
    (k k0 : κ) (v : β) :
    assocGet (assocSet m k v) k0 = if k = k0 then some v else assocGet m k0 := by
  induction m with
  | nil =>
    by_cases hk : k = k0 <;> simp [assocSet, assocGet, hk]
  | cons p rest ih =>
    by_cases hp : p.1 = k
    · subst hp
      by_cases hk : p.1 = k0 <;> simp [assocSet, assocGet, hk]
    · by_cases hk : k = k0
      · subst hk
        simp [assocSet, assocGet, hp, ih]
      · simp [assocSet, assocGet, hp, ih, hk]

theorem assocGet_assocAppend {κ β : Type} [DecidableEq κ] (m : List (κ × List β))
    (k k0 : κ) (x : β) :
    assocGet (assocAppend m k x) k0 =
      if k = k0 then some ((assocGet m k0).getD [] ++ [x]) else assocGet m k0 := by
  induction m with
  | nil =>
    by_cases hk : k = k0 <;> simp [assocAppend, assocGet, hk]
  | cons p rest ih =>
    by_cases hp : p.1 = k
    · subst hp
      by_cases hk : p.1 = k0 <;> simp [assocAppend, assocGet, hk]
    · by_cases hk : k = k0
      · subst hk
        simp [assocAppend, assocGet, hp, ih]
      · simp [assocAppend, assocGet, hp, ih, hk]

theorem gaps_match_eq (env : Env) (fuel : Nat) (dest stream : String)
    (asu : List (String × String)) (step : StepSoup) (results : Results)
    (h : stepName step = dest) :
    get_artifacts_previous_step env (fuel + 1) dest stream asu step results =
      matchStepBranch env stream asu step results := by
  simp [get_artifacts_previous_step, h]

theorem assocAppend_allEntriesP (m : Results) (k : String)
    (x : PreviousStepArtifact) (hm : allEntriesP m) (hx : notSkipped x) :
    allEntriesP (assocAppend m k x) := by
  induction m with
  | nil =>
    intro p hp a ha
    simp [assocAppend] at hp
    subst hp
    simp at ha
    subst ha
    exact hx
  | cons q rest ih =>
    have hq := hm q (List.mem_cons_self q rest)
    have hrest : allEntriesP rest := fun p hp => hm p (List.mem_cons_of_mem q hp)
    by_cases hqk : q.1 = k
    · intro p hp a ha
      simp [assocAppend, hqk] at hp
      rcases hp with hp | hp
      · subst hp
        simp at ha
        rcases ha with ha | ha
        · exact hq a ha
        · subst ha
          exact hx
      · exact hrest p hp a ha
    · intro p hp a ha
      simp [assocAppend, hqk] at hp
      rcases hp with hp | hp
      · subst hp
        exact hq a ha
      · exact ih hrest p hp a ha

theorem assocSet_allEntriesP (m : Results) (k : String)
    (v : List PreviousStepArtifact) (hm : allEntriesP m)
    (hv : ∀ a ∈ v, notSkipped a) : allEntriesP (assocSet m k v) := by
  induction m with
  | nil =>
    intro p hp a ha
    simp [assocSet] at hp
    subst hp
    exact hv a ha
  | cons q rest ih =>
    have hq := hm q (List.mem_cons_self q rest)
    have hrest : allEntriesP rest := fun p hp => hm p (List.mem_cons_of_mem q hp)
    by_cases hqk : q.1 = k
    · intro p hp a ha
      simp [assocSet, hqk] at hp
      rcases hp with hp | hp
      · subst hp
        exact hv a ha
      · exact hrest p hp a ha
    · intro p hp a ha
      simp [assocSet, hqk] at hp
      rcases hp with hp | hp
      · subst hp
        exact hq a ha
      · exact ih hrest p hp a ha

theorem assocGet_allEntriesP (m : Results) (k : String)
    (v : List PreviousStepArtifact) (hm : allEntriesP m)
    (hget : assocGet m k = some v) : ∀ a ∈ v, notSkipped a := by
  induction m with
  | nil => simp [assocGet] at hget
  | cons q rest ih =>
    have hq := hm q (List.mem_cons_self q rest)
    have hrest : allEntriesP rest := fun p hp => hm p (List.mem_cons_of_mem q hp)
    by_cases hqk : q.1 = k
    · simp [assocGet, hqk] at hget
      subst hget
      exact hq
    · simp [assocGet, hqk] at hget
      exact ih hrest hget

theorem matchRecordLoop_allEntriesP (r : ArtSoup)
    (tas : List PreviousStepArtifact) (m : Results) (hm : allEntriesP m)
    (htas : ∀ a ∈ tas, notSkipped a) :
    allEntriesP (matchRecordLoop r tas m) := by
  induction tas generalizing m with
  | nil => exact hm
  | cons ta rest ih =>
    have hta := htas ta (List.mem_cons_self ta rest)
    have hrest : ∀ a ∈ rest, notSkipped a :=
      fun a ha => htas a (List.mem_cons_of_mem ta ha)
    simp only [matchRecordLoop]
    by_cases hu : r.uri = ta.uri
    · rw [if_pos hu]
      exact ih _ (assocAppend_allEntriesP m r.sampleUri ta hm hta) hrest
    · rw [if_neg hu]
      exact ih _ hm hrest

theorem collectSmpArts_allEntriesP (tas : List PreviousStepArtifact)
    (recs : List ArtSoup) (m : Results) (hm : allEntriesP m)
    (htas : ∀ a ∈ tas, notSkipped a) :
    allEntriesP (collectSmpArts tas recs m) := by
  induction recs generalizing m with
  | nil => exact hm
  | cons r rest ih =>
    exact ih _ (matchRecordLoop_allEntriesP r tas m hm htas)

theorem assignResults_allEntriesP (tsa : Results) (htsa : allEntriesP tsa)
    (asu : List (String × String)) (res res1 : Results)
    (hres : allEntriesP res) (h : assignResults tsa asu res = .ok res1) :
    allEntriesP res1 := by
  induction asu generalizing res with
  | nil =>
    simp [assignResults] at h
    subst h
    exact hres
  | cons pair rest ih =>
    obtain ⟨artUri, smpUri⟩ := pair
    simp only [assignResults] at h
    cases hget : assocGet tsa smpUri with
    | none => rw [hget] at h; exact absurd h (by simp)
    | some v =>
      rw [hget] at h
      exact ih _ (assocSet_allEntriesP res artUri v hres
        (assocGet_allEntriesP tsa smpUri v htsa hget)) h

theorem appendShared_allEntriesP (tas : List PreviousStepArtifact)
    (res : Results) (hres : allEntriesP res)
    (htas : ∀ a ∈ tas, notSkipped a) :
    allEntriesP (appendShared tas res) := by
  induction tas generalizing res with
  | nil => exact hres
  | cons ta rest ih =>
    have hta := htas ta (List.mem_cons_self ta rest)
    have hrest : ∀ a ∈ rest, notSkipped a :=
      fun a ha => htas a (List.mem_cons_of_mem ta ha)
    simp only [appendShared]
    by_cases hRF : ta.art_type = "ResultFile"
    · rw [if_pos hRF]
      exact ih _ (assocAppend_allEntriesP res "shared" ta hres hta) hrest
    · rw [if_neg hRF]
      exact ih _ hres hrest

theorem targetArtsOf_notSkipped (stream : String) (l : List IOMapEntry)
    (tas : List PreviousStepArtifact) (h : targetArtsOf stream l = .ok tas) :
    ∀ a ∈ tas, notSkipped a := by
  induction l generalizing tas with
  | nil =>
    simp [targetArtsOf] at h
    subst h
    simp
  | cons io rest ih =>
    simp only [targetArtsOf] at h
    cases hf : findStream io stream with
    | none => rw [hf] at h; exact absurd h (by simp)
    | some u =>
      rw [hf] at h
      cases hr : targetArtsOf stream rest with
      | error e => rw [hr] at h; exact absurd h (by simp)
      | ok tail =>
        rw [hr] at h
        have h2 : (if io.outputGenerationType = "PerInput" ∧ io.outputType = "ResultFile"
            then (Except.ok tail : Except PyError (List PreviousStepArtifact))
            else Except.ok ((⟨stripQuery u, io.outputType, io.outputGenerationType⟩ : PreviousStepArtifact) :: tail)) = Except.ok tas := h
        by_cases hskip : io.outputGenerationType = "PerInput" ∧ io.outputType = "ResultFile"
        · rw [if_pos hskip] at h2
          simp only [Except.ok.injEq] at h2
          subst h2
          exact ih tail hr
        · rw [if_neg hskip] at h2
          simp only [Except.ok.injEq] at h2
          subst h2
          intro a ha
          rcases List.mem_cons.mp ha with ha | ha
          · subst ha
            exact hskip
          · exact ih tail hr a ha

theorem targetArtsOf_mem (stream : String) (l : List IOMapEntry)
    (tas : List PreviousStepArtifact) (h : targetArtsOf stream l = .ok tas)
    (io : IOMapEntry) (hio : io ∈ l)
    (hkeep : ¬(io.outputGenerationType = "PerInput" ∧ io.outputType = "ResultFile"))
    (u : String) (hu : findStream io stream = some u) :
    (⟨stripQuery u, io.outputType, io.outputGenerationType⟩ : PreviousStepArtifact) ∈ tas := by
  induction l generalizing tas with
  | nil => simp at hio
  | cons io0 rest ih =>
    simp only [targetArtsOf] at h
    rcases List.mem_cons.mp hio with hio0 | hio0
    · subst hio0
      rw [hu] at h
      cases hr : targetArtsOf stream rest with
      | error e => rw [hr] at h; exact absurd h (by simp)
      | ok tail =>
        rw [hr] at h
        have h2 : (if io.outputGenerationType = "PerInput" ∧ io.outputType = "ResultFile"
            then (Except.ok tail : Except PyError (List PreviousStepArtifact))
            else Except.ok ((⟨stripQuery u, io.outputType, io.outputGenerationType⟩ : PreviousStepArtifact) :: tail)) = Except.ok tas := h
        rw [if_neg hkeep] at h2
        simp only [Except.ok.injEq] at h2
        subst h2
        exact List.mem_cons_self _ _
    · cases hf : findStream io0 stream with
      | none => rw [hf] at h; exact absurd h (by simp)
      | some u0 =>
        rw [hf] at h
        cases hr : targetArtsOf stream rest with
        | error e => rw [hr] at h; exact absurd h (by simp)
        | ok tail =>
          rw [hr] at h
          have h2 : (if io0.outputGenerationType = "PerInput" ∧ io0.outputType = "ResultFile"
              then (Except.ok tail : Except PyError (List PreviousStepArtifact))
              else Except.ok ((⟨stripQuery u0, io0.outputType, io0.outputGenerationType⟩ : PreviousStepArtifact) :: tail)) = Except.ok tas := h
          by_cases hskip : io0.outputGenerationType = "PerInput" ∧ io0.outputType = "ResultFile"
          · rw [if_pos hskip] at h2
            simp only [Except.ok.injEq] at h2
            subst h2
            exact ih tail hr hio0
          · rw [if_neg hskip] at h2
            simp only [Except.ok.injEq] at h2
            subst h2
            exact List.mem_cons_of_mem _ (ih tail hr hio0)

/-- Claim C9: at the match step the lineage resolver skips every relation
whose output generation type is PerInput and whose output type is
ResultFile: no such entry ever appears in any originating artifact's
ancestor list or under the shared key of the returned mapping, while every
other relation (PerInput outputs of other types and shared ResultFiles) is
retained among the match candidates. -/
theorem C9_perinput_resultfiles_skipped (env : Env) (fuel : Nat)
    (dest stream : String) (asu : List (String × String)) (doc : StepSoup)
    (r : Results) (h1 : stepName doc = dest)
    (h2 : get_artifacts_previous_step env (fuel + 1) dest stream asu doc [] =
      .ok (some r)) :
    (∀ p ∈ r, ∀ a ∈ p.2, notSkipped a) ∧
    (∀ tas, targetArtsOf stream doc.iomaps = .ok tas →
      ∀ io ∈ doc.iomaps,
        ¬(io.outputGenerationType = "PerInput" ∧ io.outputType = "ResultFile") →
        ∀ u, findStream io stream = some u →
          (⟨stripQuery u, io.outputType, io.outputGenerationType⟩ :
            PreviousStepArtifact) ∈ tas) := by
  constructor
  · rw [gaps_match_eq env fuel dest stream asu doc [] h1] at h2
    unfold matchStepBranch at h2
    cases htas : targetArtsOf stream doc.iomaps with
    | error e => rw [htas] at h2; exact absurd h2 (by simp)
    | ok tas =>
      rw [htas] at h2
      have hE : ∀ a ∈ tas, notSkipped a :=
        targetArtsOf_notSkipped stream doc.iomaps tas htas
      have h2b : (match assignResults
          (collectSmpArts tas (batchGetArts env (tas.map (fun a => a.uri))) [])
          asu [] with
        | Except.error e => (Except.error e : Except PyError (Option Results))
        | Except.ok res1 => Except.ok (some (appendShared tas res1))) =
          Except.ok (some r) := h2
      cases hassign : assignResults
          (collectSmpArts tas (batchGetArts env (tas.map (fun a => a.uri))) [])
          asu [] with
      | error e =>
        rw [hassign] at h2b
        exact absurd h2b (by simp)
      | ok res1 =>
        rw [hassign] at h2b
        simp only [Except.ok.injEq, Option.some.injEq] at h2b
        subst h2b
        have htsa : allEntriesP
            (collectSmpArts tas (batchGetArts env (tas.map (fun a => a.uri))) []) :=
          collectSmpArts_allEntriesP tas _ [] (by simp [allEntriesP]) hE
        have hres1 : allEntriesP res1 :=
          assignResults_allEntriesP _ htsa asu [] res1 (by simp [allEntriesP]) hassign
        exact appendShared_allEntriesP tas res1 hres1 hE
  · intro tas htas io hio hkeep u hu
    exact targetArtsOf_mem stream doc.iomaps tas htas io hio hkeep u hu

/-- Witness for C9 at the step-S scenario: the PerAllInputs entry stored for
sample 1 is not a skipped PerInput ResultFile. -/
theorem C9_perinput_resultfiles_skipped_witness :
    ¬(taA1R.generation_type = "PerInput" ∧ taA1R.art_type = "ResultFile") :=
  (C9_perinput_resultfiles_skipped envS 4 "S" "input" asuS docS dS1 rfl rfl).1
    ("O1", [taA1, taA1R]) (by decide) taA1R (by decide)

theorem assignResults_get_shared (tsa : Results) (asu : List (String × String))
    (res res1 : Results) (hk : ∀ p ∈ asu, p.1 ≠ "shared")
    (h : assignResults tsa asu res = .ok res1) :
    assocGet res1 "shared" = assocGet res "shared" := by
  induction asu generalizing res with
  | nil =>
    simp [assignResults] at h
    subst h
    rfl
  | cons pair rest ih =>
    obtain ⟨artUri, smpUri⟩ := pair
    simp only [assignResults] at h
    cases hget : assocGet tsa smpUri with
    | none => rw [hget] at h; exact absurd h (by simp)
    | some v =>
      rw [hget] at h
      have h2 : assignResults tsa rest (assocSet res artUri v) = Except.ok res1 := h
      have h1 := ih (assocSet res artUri v)
        (fun p hp => hk p (List.mem_cons_of_mem _ hp)) h2
      rw [h1, assocGet_assocSet]
      rw [if_neg (hk (artUri, smpUri) (List.mem_cons_self _ _))]

theorem appendShared_get (tas : List PreviousStepArtifact) (res : Results) :
    assocGet (appendShared tas res) "shared" =
      (if (tas.filter (fun a => a.art_type == "ResultFile")).isEmpty
       then assocGet res "shared"
       else some ((assocGet res "shared").getD [] ++
         tas.filter (fun a => a.art_type == "ResultFile"))) := by
  induction tas generalizing res with
  | nil => simp [appendShared]
  | cons ta rest ih =>
    simp only [appendShared]
    by_cases hRF : ta.art_type = "ResultFile"
    · rw [if_pos hRF, ih]
      have hfil : List.filter (fun a => a.art_type == "ResultFile") (ta :: rest) =
          ta :: List.filter (fun a => a.art_type == "ResultFile") rest := by
        simp [List.filter_cons, hRF]
      rw [hfil, assocGet_assocAppend]
      simp only [if_pos rfl]
      by_cases hemp : (List.filter (fun a => a.art_type == "ResultFile") rest).isEmpty
      · have hnil : List.filter (fun a => a.art_type == "ResultFile") rest = [] := by
          simpa using hemp
        simp [hemp, hnil]
      · simp [hemp]
    · rw [if_neg hRF, ih]
      have hfil : List.filter (fun a => a.art_type == "ResultFile") (ta :: rest) =
          List.filter (fun a => a.art_type == "ResultFile") rest := by
        simp [List.filter_cons, hRF]
      rw [hfil]

/-- Claim C5 (amended): at the match step, starting from an empty results
dict, the `shared` key of the returned mapping holds exactly the retained
relation entries whose output type is ResultFile (equivalently the
PerAllInputs ResultFile relations, the PerInput ones having been skipped),
one entry per relation occurrence in document order, without any
deduplication, each entry carrying the stream-side uri of its relation;
PerAllInputs outputs of other types are not included, and when no such
relation exists the `shared` key is absent. -/
theorem C5_shared_key_contents (env : Env) (fuel : Nat) (dest stream : String)
    (asu : List (String × String)) (doc : StepSoup) (r : Results)
    (h1 : stepName doc = dest) (hsh : ∀ p ∈ asu, p.1 ≠ "shared")
    (h2 : get_artifacts_previous_step env (fuel + 1) dest stream asu doc [] =
      .ok (some r)) :
    ∃ tas, targetArtsOf stream doc.iomaps = .ok tas ∧
      assocGet r "shared" =
        (if (tas.filter (fun a => a.art_type == "ResultFile")).isEmpty then none
         else some (tas.filter (fun a => a.art_type == "ResultFile"))) := by
  rw [gaps_match_eq env fuel dest stream asu doc [] h1] at h2
  unfold matchStepBranch at h2
  cases htas : targetArtsOf stream doc.iomaps with
  | error e => rw [htas] at h2; exact absurd h2 (by simp)
  | ok tas =>
    rw [htas] at h2
    have h2b : (match assignResults
        (collectSmpArts tas (batchGetArts env (tas.map (fun a => a.uri))) [])
        asu [] with
      | Except.error e => (Except.error e : Except PyError (Option Results))
      | Except.ok res1 => Except.ok (some (appendShared tas res1))) =
        Except.ok (some r) := h2
    cases hassign : assignResults
        (collectSmpArts tas (batchGetArts env (tas.map (fun a => a.uri))) [])
        asu [] with
    | error e =>
      rw [hassign] at h2b
      exact absurd h2b (by simp)
    | ok res1 =>
      rw [hassign] at h2b
      simp only [Except.ok.injEq, Option.some.injEq] at h2b
      subst h2b
      refine ⟨tas, rfl, ?_⟩
      rw [appendShared_get]
      have hres1 : assocGet res1 "shared" = assocGet ([] : Results) "shared" :=
        assignResults_get_shared _ asu [] res1 hsh hassign
      rw [hres1]
      simp [assocGet]

/-- Witness for C5 at the step-S scenario with stream output: the shared
key of the returned mapping holds the ResultFile entries of the retained
relations, the shared file once per relation. -/
theorem C5_shared_key_contents_witness :
    assocGet d5res "shared" =
      (if (tas5.filter (fun a => a.art_type == "ResultFile")).isEmpty then none
       else some (tas5.filter (fun a => a.art_type == "ResultFile"))) := by
  obtain ⟨tas, htas, hval⟩ :=
    C5_shared_key_contents envS 4 "S" "output" asu5 docS d5res rfl (by decide) rfl
  have heq : (Except.ok tas5 : Except PyError (List PreviousStepArtifact)) =
      Except.ok tas := by
    rw [← htas]
    rfl
  simp only [Except.ok.injEq] at heq
  rw [← heq] at hval
  exact hval

/-- Claim C5 counterexample: in the step-S scenario with stream output the
shared ResultFile R participates in two relations, so its entry appears
twice under the shared key, refuting deduplication by identity. -/
theorem C5_shared_duplicates_counterexample :
    get_artifacts_previous_step envS 5 "S" "output" asu5 docS [] =
      .ok (some d5res) ∧
    assocGet d5res "shared" = some [taR, taR] ∧
    ¬([taR, taR] : List PreviousStepArtifact).Nodup :=
  ⟨rfl, rfl, by decide⟩

/-- Claim C1: with dest_step absent from the traced samples' history, the
resolver is documented to raise a history-exhausted RuntimeError, but the
code returns Python None: on a step whose only input artifact has no
parent-process back-link the parent set is empty, the recursion loop body
never runs, and the function falls off its end.  (The `except
AttributeError` guarding this case is dead code, since `find_all` returns a
plain list.) -/
theorem C1_history_exhausted_returns_none :
    get_artifacts_previous_step envFront 5 "Dest" "input" [("O1", "s1")]
      docFront [] = .ok none :=
  rfl

/-- Claim C2: when the hydrated input artifacts carry two distinct
parent-process references (here X and Y), the resolver does not fail with a
consistency error: it recurses into one branch of the deduplicated parent
set and returns results derived from it. -/
theorem C2_divergent_parents_followed_silently :
    (batchGetArts envChain ["a1", "a2"]).filterMap ArtSoup.parentProcess =
      ["X", "Y"] ∧
    ("X" : String) ≠ "Y" ∧
    get_artifacts_previous_step envChain 10 "Dest" "input" asuS docC [] =
      .ok (some dChain) :=
  ⟨rfl, by decide, rfl⟩

/-- Claim C3: the two-successive-defaulted-calls composition is not
idempotent: the first call returns dS1, the second returns dS2, whose
shared list carries the first call's entries twice, because the default
results dict is a single shared mutable object. -/
theorem C3_default_accumulator_not_idempotent :
    get_artifacts_previous_step_twice envS 5 "S" "input" asuS docS =
      .ok (some dS1, some dS2) ∧
    ¬pyDictEquiv dS1 dS2 :=
  ⟨rfl, fun h => absurd (h "shared") (by decide)⟩

/-- Claim C4 counterexample: in the end-to-end scenario the call does not
return the claimed mapping: O1 maps to two entries rather than exactly one
ancestor A1, and the shared key holds two input-side entries (uris A1 and
A2) rather than the single ResultFile R once. -/
theorem C4_two_input_scenario_counterexample :
    get_artifacts_previous_step envS 5 "S" "input" asuS docS [] =
      .ok (some dS1) ∧
    (assocGet dS1 "O1").map List.length = some 2 ∧
    assocGet dS1 "shared" = some [taA1R, taA2R] ∧
    taA1R.uri = "A1" ∧ taA2R.uri = "A2" ∧ taA1R.uri ≠ "R" :=
  ⟨rfl, by decide, rfl, rfl, rfl, by decide⟩

/-- Claim C4 (amended): in the end-to-end scenario the call returns exactly
dS1: each originating artifact maps to the entries of all retained
relations touching its sample, both carrying the input-side uri (the
Analyte relation and the shared-ResultFile relation), and the shared key
holds the input-side entries of the two shared relations. -/
theorem C4_two_input_scenario_actual :
    get_artifacts_previous_step envS 5 "S" "input" asuS docS [] =
      .ok (some dS1) :=
  rfl

/-- Claim C7: in the history-exhausted case the call returns None rather
than raising: neither supplied originating artifact (O1, O2) appears as a
key of any returned mapping and no error is raised, so the
key-coverage-or-error invariant fails. -/
theorem C7_supplied_artifact_dropped_without_error :
    get_artifacts_previous_step envStop 5 "Dest" "input" asuS docStop [] =
      .ok none :=
  rfl

theorem amLoop_uri_mode (env : Env) (l : List IOMapEntry) (st : AMState) :
    amLoop env true false l st = .ok { st with uriMap := uriPairsFold l st.uriMap } := by
  induction l generalizing st with
  | nil => rfl
  | cons io rest ih =>
    simp only [amLoop, uriPairsFold]
    by_cases hper : io.outputGenerationType = "PerInput"
    · rw [if_pos hper, if_pos hper]
      simp only [Bool.not_false, Bool.and_true, if_true]
      exact ih _
    · rw [if_neg hper, if_neg hper]
      exact ih _

theorem assocAppend_pairCount {κ β : Type} [DecidableEq κ]
    (m : List (κ × List β)) (k : κ) (x : β) :
    pairCount (assocAppend m k x) = pairCount m + 1 := by
  induction m with
  | nil => simp [assocAppend, pairCount]
  | cons p rest ih =>
    by_cases hp : p.1 = k
    · simp [assocAppend, pairCount, hp]
      omega
    · simp [assocAppend, pairCount, hp, ih]
      omega

theorem uriPairsFold_pairCount (l : List IOMapEntry)
    (m : List (String × List String)) :
    pairCount (uriPairsFold l m) =
      pairCount m +
        (l.filter (fun io => io.outputGenerationType == "PerInput")).length := by
  induction l generalizing m with
  | nil => simp [uriPairsFold]
  | cons io rest ih =>
    simp only [uriPairsFold]
    by_cases hper : io.outputGenerationType = "PerInput"
    · rw [if_pos hper, ih, assocAppend_pairCount]
      simp [List.filter_cons, hper]
      omega
    · rw [if_neg hper, ih]
      simp [List.filter_cons, hper]

theorem assocAppend_PairsP {κ β : Type} [DecidableEq κ]
    (P : κ → β → Prop) (m : List (κ × List β)) (k : κ) (x : β)
    (hm : PairsP P m) (hx : P k x) : PairsP P (assocAppend m k x) := by
  induction m with
  | nil =>
    intro p hp o ho
    simp [assocAppend] at hp
    subst hp
    simp at ho
    subst ho
    exact hx
  | cons q rest ih =>
    have hq := hm q (List.mem_cons_self q rest)
    have hrest : PairsP P rest := fun p hp => hm p (List.mem_cons_of_mem q hp)
    by_cases hqk : q.1 = k
    · intro p hp o ho
      simp [assocAppend, hqk] at hp
      rcases hp with hp | hp
      · subst hp
        simp at ho
        rcases ho with ho | ho
        · exact hqk ▸ hq o ho
        · subst ho
          exact hx
      · exact hrest p hp o ho
    · intro p hp o ho
      simp [assocAppend, hqk] at hp
      rcases hp with hp | hp
      · subst hp
        exact hq o ho
      · exact ih hrest p hp o ho

theorem uriPairsFold_PairsP (P : String → String → Prop)
    (l : List IOMapEntry) (m : List (String × List String))
    (hm : PairsP P m)
    (hl : ∀ io ∈ l, io.outputGenerationType = "PerInput" →
      P io.inputUri io.outputUri) :
    PairsP P (uriPairsFold l m) := by
  induction l generalizing m with
  | nil => exact hm
  | cons io rest ih =>
    simp only [uriPairsFold]
    have hrest : ∀ io0 ∈ rest, io0.outputGenerationType = "PerInput" →
        P io0.inputUri io0.outputUri :=
      fun io0 h0 => hl io0 (List.mem_cons_of_mem io h0)
    by_cases hper : io.outputGenerationType = "PerInput"
    · rw [if_pos hper]
      exact ih _ (assocAppend_PairsP P m io.inputUri io.outputUri hm
        (hl io (List.mem_cons_self io rest) hper)) hrest
    · rw [if_neg hper]
      exact ih _ hm hrest

theorem mem_getD_assocAppend {κ β : Type} [DecidableEq κ]
    (m : List (κ × List β)) (k k1 : κ) (v o : β)
    (h : o ∈ (assocGet m k).getD []) :
    o ∈ (assocGet (assocAppend m k1 v) k).getD [] := by
  rw [assocGet_assocAppend]
  by_cases hk : k1 = k
  · rw [if_pos hk]
    simp only [Option.getD_some]
    exact List.mem_append_left _ h
  · rw [if_neg hk]
    exact h

theorem mem_getD_uriPairsFold (l : List IOMapEntry)
    (m : List (String × List String)) (k o : String)
    (h : o ∈ (assocGet m k).getD []) :
    o ∈ (assocGet (uriPairsFold l m) k).getD [] := by
  induction l generalizing m with
  | nil => exact h
  | cons io rest ih =>
    simp only [uriPairsFold]
    by_cases hper : io.outputGenerationType = "PerInput"
    · rw [if_pos hper]
      exact ih _ (mem_getD_assocAppend m k io.inputUri io.outputUri o h)
    · rw [if_neg hper]
      exact ih _ h

theorem uriPairsFold_mem_self (l : List IOMapEntry)
    (m : List (String × List String)) (io : IOMapEntry) (hio : io ∈ l)
    (hper : io.outputGenerationType = "PerInput") :
    io.outputUri ∈ (assocGet (uriPairsFold l m) io.inputUri).getD [] := by
  induction l generalizing m with
  | nil => simp at hio
  | cons io0 rest ih =>
    simp only [uriPairsFold]
    rcases List.mem_cons.mp hio with h0 | h0
    · subst h0
      rw [if_pos hper]
      refine mem_getD_uriPairsFold rest _ io.inputUri io.outputUri ?_
      rw [assocGet_assocAppend, if_pos rfl]
      simp
    · by_cases hper0 : io0.outputGenerationType = "PerInput"
      · rw [if_pos hper0]
        exact ih _ h0
      · rw [if_neg hper0]
        exact ih _ h0

theorem mem_getD_to_some {κ β : Type} [DecidableEq κ]
    (m : List (κ × List β)) (k : κ) (o : β)
    (h : o ∈ (assocGet m k).getD []) :
    ∃ outs, assocGet m k = some outs ∧ o ∈ outs := by
  cases hg : assocGet m k with
  | none => rw [hg] at h; simp at h
  | some outs =>
    rw [hg] at h
    exact ⟨outs, rfl, h⟩

theorem get_artifact_map_uri_mode (env : Env) (doc : StepSoup) :
    get_artifact_map env doc true false =
      .ok (.uris (uriPairsFold doc.iomaps [])) := by
  show (match amLoop env true false doc.iomaps
      { inArts := none, outArts := none, uriMap := [], artMap := [] } with
    | Except.error e => (Except.error e : Except PyError ArtifactMapResult)
    | Except.ok st =>
      Except.ok (if (true && !false) = true then ArtifactMapResult.uris st.uriMap
        else ArtifactMapResult.arts st.artMap)) =
    Except.ok (.uris (uriPairsFold doc.iomaps []))
  rw [amLoop_uri_mode]
  rfl

/-- Claim C6 (amended): in uri mode the io-map builder returns exactly the
PerInput (input, output) relation pairs, grouped by input uri: the total
number of stored pairs equals the number of PerInput relations, every
stored pair comes from a PerInput relation, and every PerInput relation's
output is stored under its input.  PerAllInputs relations are skipped
entirely: no shared aggregation happens and no shared output appears in the
mapping. -/
theorem C6_per_input_entries_only (env : Env) (doc : StepSoup) :
    ∃ m, get_artifact_map env doc true false = .ok (.uris m) ∧
      pairCount m =
        (doc.iomaps.filter (fun io => io.outputGenerationType == "PerInput")).length ∧
      (∀ p ∈ m, ∀ o ∈ p.2, ∃ io, io ∈ doc.iomaps ∧
        io.outputGenerationType = "PerInput" ∧ io.inputUri = p.1 ∧
        io.outputUri = o) ∧
      (∀ io ∈ doc.iomaps, io.outputGenerationType = "PerInput" →
        ∃ outs, assocGet m io.inputUri = some outs ∧ io.outputUri ∈ outs) := by
  refine ⟨uriPairsFold doc.iomaps [], ?_, ?_, ?_, ?_⟩
  · exact get_artifact_map_uri_mode env doc
  · rw [uriPairsFold_pairCount]
    simp [pairCount]
  · have hP := uriPairsFold_PairsP
      (fun k o => ∃ io, io ∈ doc.iomaps ∧ io.outputGenerationType = "PerInput" ∧
        io.inputUri = k ∧ io.outputUri = o)
      doc.iomaps [] (by intro p hp; simp at hp)
      (fun io hio hper => ⟨io, hio, hper, rfl, rfl⟩)
    exact hP
  · intro io hio hper
    exact mem_getD_to_some _ _ _
      (uriPairsFold_mem_self doc.iomaps [] io hio hper)

/-- Witness for C6 on the mixed one-PerInput-one-PerAllInputs step: the
uri-mode map stores exactly one pair, matching the PerInput relation
count. -/
theorem C6_per_input_entries_only_witness :
    pairCount ([("A1x", ["O1x"])] : List (String × List String)) =
      (docMix.iomaps.filter
        (fun io => io.outputGenerationType == "PerInput")).length := by
  obtain ⟨m, h1, h2, _, _⟩ := C6_per_input_entries_only envMix docMix
  have h0 : get_artifact_map envMix docMix true false =
      .ok (.uris [("A1x", ["O1x"])]) := rfl
  rw [h0] at h1
  have hm : ([("A1x", ["O1x"])] : List (String × List String)) = m := by
    injection h1 with h1b
    injection h1b with h1c
  rw [hm]
  exact h2

/-- Claim C6 counterexample: on a step with one PerInput relation and one
PerAllInputs relation (M = 1 shared output Rx), the builder returns a map
with no shared key and without the shared output anywhere: the shared
outputs are not aggregated, refuting the claim. -/
theorem C6_no_shared_key_counterexample :
    get_artifact_map envMix docMix true false =
      .ok (.uris [("A1x", ["O1x"])]) ∧
    assocGet ([("A1x", ["O1x"])] : List (String × List String)) "shared" = none ∧
    ¬("Rx" ∈ (["O1x"] : List String)) :=
  ⟨rfl, rfl, by decide⟩

theorem amLoop_true_true_fails (env : Env) (l : List IOMapEntry) (st : AMState)
    (hin : st.inArts = none)
    (hex : ∃ io ∈ l, io.outputGenerationType = "PerInput") :
    amLoop env true true l st = .error .unboundLocal := by
  induction l generalizing st with
  | nil => simp at hex
  | cons io rest ih =>
    simp only [amLoop]
    by_cases hper : io.outputGenerationType = "PerInput"
    · rw [if_pos hper]
      simp only [Bool.not_true, Bool.and_false, Bool.false_eq_true, if_false]
      have hbody : amBodyArts env true io st = .error .unboundLocal := by
        simp [amBodyArts, enrichContainers, hin]
      rw [hbody]
    · rw [if_neg hper]
      obtain ⟨io0, hio0, hper0⟩ := hex
      rcases List.mem_cons.mp hio0 with h0 | h0
      · subst h0
        exact absurd hper0 hper
      · exact ih st hin ⟨io0, h0, hper0⟩

/-- Claim C10: calling the io-map builder with uri_only and container_info
both set, on a step with at least one PerInput relation, fails with an
UnboundLocalError: the container-enrichment branch reads the input lookup
table, which is only assigned when uri_only is false. -/
theorem C10_uri_only_container_info_fails (env : Env) (doc : StepSoup)
    (hex : ∃ io ∈ doc.iomaps, io.outputGenerationType = "PerInput") :
    get_artifact_map env doc true true = .error .unboundLocal := by
  show (match amLoop env true true doc.iomaps
      { inArts := none, outArts := none, uriMap := [], artMap := [] } with
    | Except.error e => (Except.error e : Except PyError ArtifactMapResult)
    | Except.ok st =>
      Except.ok (if (true && !true) = true then ArtifactMapResult.uris st.uriMap
        else ArtifactMapResult.arts st.artMap)) =
    Except.error PyError.unboundLocal
  rw [amLoop_true_true_fails env doc.iomaps _ rfl hex]

/-- Witness for C10 on the mixed step, whose first relation is PerInput. -/
theorem C10_uri_only_container_info_fails_witness :
    get_artifact_map envMix docMix true true = .error .unboundLocal :=
  C10_uri_only_container_info_fails envMix docMix
    ⟨{ inputUri := "A1x", outputUri := "O1x", outputType := "Analyte",
       outputGenerationType := "PerInput" }, by decide, rfl⟩

theorem replaceFirstText_append (pre : List UdfField) (f : UdfField)
    (post : List UdfField) (nm t : String) (hpre : ∀ g ∈ pre, g.name ≠ nm)
    (hf : f.name = nm) :
    replaceFirstText (pre ++ f :: post) nm t =
      pre ++ { f with text := t } :: post := by
  induction pre with
  | nil =>
    simp only [List.nil_append, replaceFirstText]
    rw [if_pos hf]
  | cons g rest ih =>
    have hg : g.name ≠ nm := hpre g (List.mem_cons_self g rest)
    simp only [List.cons_append, replaceFirstText]
    rw [if_neg hg]
    exact congrArg (fun l => g :: l)
      (ih (fun g0 h0 => hpre g0 (List.mem_cons_of_mem g h0)))

/-- Claim C8: when no field with the given name exists, a new field is
synthesized whose declared type comes solely from the value's shape — a
boolean yields Boolean (even though a Python bool is also an int), an int
or float yields Numeric, anything else yields String — with the value
serialized as text; when a field with that name already exists, only the
text of its first occurrence is overwritten and its declared type is
preserved regardless of the new value's shape. -/
theorem C8_udf_typing :
    (∀ b : Bool, infer_udf_type (.pybool b) = "Boolean" ∧
      isinstance_int (.pybool b) = true) ∧
    (∀ n : Int, infer_udf_type (.pyint n) = "Numeric") ∧
    (∀ t : String, infer_udf_type (.pyfloat t) = "Numeric") ∧
    (∀ str : String, infer_udf_type (.pystr str) = "String") ∧
    (∀ (fields : List UdfField) (nm : String) (v : PyValue),
      (∀ f ∈ fields, f.name ≠ nm) →
      set_one_udf fields nm v =
        { name := nm, declaredType := infer_udf_type v,
          text := pythonStr v } :: fields) ∧
    (∀ (pre : List UdfField) (f : UdfField) (post : List UdfField)
        (nm : String) (v : PyValue),
      (∀ g ∈ pre, g.name ≠ nm) → f.name = nm →
      set_one_udf (pre ++ f :: post) nm v =
        pre ++ { f with text := pythonStr v } :: post) := by
  refine ⟨?_, ?_, ?_, ?_, ?_, ?_⟩
  · intro b
    exact ⟨rfl, rfl⟩
  · intro n
    rfl
  · intro t
    rfl
  · intro str
    rfl
  · intro fields nm v hnone
    unfold set_one_udf
    rw [if_neg ?_]
    simp only [List.any_eq_true, beq_iff_eq, not_exists]
    intro f hf
    exact hnone f hf.1 hf.2
  · intro pre f post nm v hpre hf
    unfold set_one_udf
    rw [if_pos ?_, replaceFirstText_append pre f post nm (pythonStr v) hpre hf]
    simp only [List.any_eq_true, beq_iff_eq]
    exact ⟨f, by simp, hf⟩

/-- Witness for C8: a fresh boolean field gets type Boolean with text True;
re-setting an existing String field with the int 5 keeps type String and
stores text 5. -/
theorem C8_udf_typing_witness :
    set_one_udf [] "X" (.pybool true) =
      [{ name := "X", declaredType := "Boolean", text := "True" }] ∧
    set_one_udf [{ name := "X", declaredType := "String", text := "Old" }]
        "X" (.pyint 5) =
      [{ name := "X", declaredType := "String", text := "5" }] := by
  constructor
  · rw [C8_udf_typing.2.2.2.2.1 [] "X" (.pybool true) (by simp)]
    rfl
  · show set_one_udf
        ([] ++ { name := "X", declaredType := "String", text := "Old" } :: [])
        "X" (.pyint 5) =
      [{ name := "X", declaredType := "String", text := "5" }]
    rw [C8_udf_typing.2.2.2.2.2 []
      { name := "X", declaredType := "String", text := "Old" } [] "X"
      (.pyint 5) (by simp) rfl]
    rfl
